import Mathlib

/-!
# Verification of XiaoXue-Video-Tools core logic

A shallow embedding, in Lean 4, of the two core components of the
XiaoXue-Video-Tools repository:

* the media quality-control (QC) scanner of `src/qc.py`
  (probing, rule evaluation, directory scan, report totals), and
* the batch sequential renamer of `src/batch_renamer.py`
  (extension filtering, size-stable sorting, grouping, sequencing,
  collision avoidance).

Modelling conventions, stated once here and referenced below:

* Python strings are Lean `String`s; the handful of Python string methods
  the code uses (`lower`, `upper`, `strip`, `lstrip(".")`, one-character
  `split`) are embedded as executable functions over `String.data`.
* Filesystem paths use the POSIX separator; a directory's contents are an
  explicit list (`DirEntry` for the renamer, `ScanFile` for the scanner),
  and `os.path.exists` is membership in the list of current paths.
* The external `ffprobe` process is a value of type `ProbeOutcome`:
  either the invocation raised an exception, or it returned an exit code,
  a parse of its JSON stdout, and its stderr text.  A failed
  `json.loads` or a failed field coercion inside `_parse_ffprobe_output`
  is the `Except.error` case of the stdout parse, matching the single
  `try/except` that guards both in `probe_media`.
* Python `float` fields quantized by `round(x, 2)` are embedded exactly
  as integer hundredths (see `fps_of_rational`); unquantized floats that
  are merely stored and compared to integer thresholds are embedded
  as `ℚ`.
* Python integers are `ℤ`; `//` is `Int.fdiv` (floor division).
-/

/-! ## Python / os.path string helpers -/

/-- Models Python `str.lower()` as used on extensions and codec names. -/
def py_lower (s : String) : String := List.asString (s.data.map Char.toLower)

/-- Models Python `str.upper()` as used in the format-mismatch warning. -/
def py_upper (s : String) : String := List.asString (s.data.map Char.toUpper)

/-- Models Python `str.strip()` with no argument: remove leading and
trailing whitespace. -/
def py_strip (s : String) : String :=
  List.asString (((s.data.dropWhile Char.isWhitespace).reverse.dropWhile Char.isWhitespace).reverse)

/-- Models Python `str.lstrip(".")`: remove every leading dot. -/
def lstrip_dots (s : String) : String := List.asString (s.data.dropWhile (fun c => c = '.'))

/-- Split a character list at every occurrence of the separator `c`.
Models Python `str.split(sep)` for the one-character separators `"x"` and
`"/"` used in `qc.py`. -/
def split_char_list (c : Char) (l : List Char) : List (List Char) :=
  l.foldr
    (fun d acc =>
      if d = c then [] :: acc
      else
        match acc with
        | [] => [[d]]
        | a :: rest => (d :: a) :: rest)
    [[]]

/-- Models Python `str.split(sep)` for a one-character separator. -/
def py_split (c : Char) (s : String) : List String := (split_char_list c s.data).map List.asString

/-- Models `os.path.basename`: the part after the last separator. -/
def basename (s : String) : String :=
  List.asString ((s.data.reverse.takeWhile (fun c => ¬ c = '/')).reverse)

/-- Models `os.path.dirname`: everything before the last separator, with
trailing separators stripped unless the result is all separators. -/
def dirname (s : String) : String :=
  let afterBase := s.data.reverse.dropWhile (fun c => ¬ c = '/')
  if afterBase.all (fun c => c = '/') then List.asString afterBase.reverse
  else List.asString ((afterBase.dropWhile (fun c => c = '/')).reverse)

/-- Guard used by `os.path.splitext`: does the remainder of the (reversed)
path, left of a candidate extension dot and right of any separator, contain
a character other than a dot?  This is what keeps names such as `.bashrc`
unsplit. -/
def splitext_has_stem : List Char → Bool
  | [] => false
  | '/' :: _ => false
  | '.' :: rest => splitext_has_stem rest
  | _ :: _ => true

/-- Scan the reversed character list for the extension dot of
`os.path.splitext`: the last dot of the final path component. -/
def splitext_rev : List Char → List Char → Option (List Char × List Char)
  | [], _ => none
  | '/' :: _, _ => none
  | '.' :: rest, acc =>
    if splitext_has_stem rest then some (rest, '.' :: acc) else none
  | c :: rest, acc => splitext_rev rest (c :: acc)

/-- Models `os.path.splitext`: split off the extension at the last dot of
the final path component, provided that component has a non-dot character
before the dot; otherwise the extension is empty. -/
def splitext (s : String) : String × String :=
  match splitext_rev s.data.reverse [] with
  | some (stemRev, ext) => (List.asString stemRev.reverse, List.asString ext)
  | none => (s, "")

/-- Models `os.path.join` for the POSIX separator, for the relative-path
joins performed by the renamer (flat input directory, output base). -/
def pathJoin (a b : String) : String :=
  match b.data with
  | '/' :: _ => b
  | _ =>
    if a = "" then b
    else if a.data.getLast? = some '/' then a ++ b
    else a ++ "/" ++ b

/-! ## Python `int()` and the fps rational -/

/-- Decimal value of an ASCII digit character. -/
def digit_val (c : Char) : Nat := c.toNat - '0'.toNat

/-- Value of a run of decimal digits with Python's single-underscore digit
grouping; `none` when the run is not a valid `int()` digit sequence. -/
def parse_digit_run (l : List Char) : Option Nat :=
  match l with
  | [] => none
  | c :: rest =>
    if c.isDigit then
      match rest.foldl
        (fun st d =>
          match st with
          | none => none
          | some (a, lastUnderscore) =>
            if d.isDigit then some (10 * a + digit_val d, false)
            else if d = '_' ∧ lastUnderscore = false then some (a, true)
            else none)
        (some (digit_val c, false)) with
      | some (v, false) => some v
      | _ => none
    else none

/-- Models Python `int(str)`: optional surrounding whitespace, an optional
sign, then decimal digits (with underscore grouping); `none` models the
`ValueError` the code catches. -/
def py_int (s : String) : Option ℤ :=
  match (py_strip s).data with
  | '+' :: rest => (parse_digit_run rest).map (fun v => (v : ℤ))
  | '-' :: rest => (parse_digit_run rest).map (fun v => -(v : ℤ))
  | l => (parse_digit_run l).map (fun v => (v : ℤ))

/-- Models `num, den = map(int, fps_str.split("/"))` at qc.py:218:
`some (num, den)` exactly when the split yields two fields and both parse
as Python ints; `none` models the exception caught at qc.py:220. -/
def parse_rational (s : String) : Option (ℤ × ℤ) :=
  match py_split '/' s with
  | [a, b] =>
    match py_int a, py_int b with
    | some n, some d => some (n, d)
    | _, _ => none
  | _ => none

/-- Round-half-to-even of the rational `a / b` (for `b ≠ 0`), the rounding
performed by Python's `round`; returns 0 when `b = 0`, a case excluded by
every caller.  IEEE-754 double rounding in the Python code is modelled by
this exact rational rounding. -/
def round_half_even (a b : ℤ) : ℤ :=
  let a' := if b < 0 then -a else a
  let b' := if b < 0 then -b else b
  if b' = 0 then 0
  else
    let q := a'.fdiv b'
    let r := a'.fmod b'
    if 2 * r < b' then q
    else if b' < 2 * r then q + 1
    else if q % 2 = 0 then q
    else q + 1

/-- Models qc.py:215-221, the fps computed from a video stream's
`r_frame_rate` string: `round(num / den, 2) if den else 0`, with the
parse failure caught and turned into 0.  The Python float rounded to two
decimals is stored exactly as integer hundredths of a frame per second. -/
def fps_of_rational (s : String) : ℤ :=
  match parse_rational s with
  | some (n, d) => if ¬ d = 0 then round_half_even (100 * n) d else 0
  | none => 0

/-! ## QC scanner data model (qc.py) -/

/-- Embeds qc.py:17, the Premiere-incompatible container blacklist (a Python set;
only membership is used, so a list embeds it). -/
def PR_INCOMPATIBLE_CONTAINERS : List String := [".mkv", ".webm", ".ogv", ".ogg", ".flv"]

/-- Embeds qc.py:20, the Premiere-incompatible video codec blacklist. -/
def PR_INCOMPATIBLE_CODECS : List String := ["vp8", "vp9", "av1", "theora"]

/-- Embeds qc.py:23, the incompatible image format blacklist. -/
def PR_INCOMPATIBLE_IMAGE_FORMATS : List String := [".webp", ".heic", ".avif"]

/-- Embeds qc.py:26, the common image extensions used by the scan filter and the
signature-mismatch rule. -/
def COMMON_IMAGE_EXTENSIONS : List String :=
  [".jpg", ".jpeg", ".png", ".gif", ".bmp", ".tiff", ".tif", ".webp", ".heic", ".avif"]

/-- Embeds qc.py:128-148, the `MediaInfo` dataclass.  `fps` is stored as integer
hundredths (the Python float is always the result of `round(x, 2)` or 0);
`duration_sec` is an exact rational standing for the Python float. -/
structure MediaInfo where
  path : String
  filename : String
  container : String
  duration_sec : ℚ
  video_codec : String
  width : ℤ
  height : ℤ
  fps : ℤ
  bitrate_kbps : ℤ
  audio_codec : String
  audio_bitrate_kbps : ℤ
  errors : List String
  warnings : List String
  is_valid : Bool
deriving DecidableEq

/-- Builds `MediaInfo(path=p)` with the dataclass defaults and `__post_init__`
(qc.py:146-148): filename and container are derived from the path. -/
def mkMediaInfo (path : String) : MediaInfo :=
  { path := path
    filename := basename path
    container := py_lower (splitext path).2
    duration_sec := 0
    video_codec := ""
    width := 0
    height := 0
    fps := 0
    bitrate_kbps := 0
    audio_codec := ""
    audio_bitrate_kbps := 0
    errors := []
    warnings := []
    is_valid := true }

/-- The `format` section of the ffprobe JSON after the coercions at
qc.py:202-205 (`float(...)`, `int(...)`): a missing field has already been
replaced by the `.get(..., 0)` default. -/
structure FormatData where
  duration : ℚ
  bit_rate : ℤ
deriving DecidableEq

/-- One entry of the `streams` list of the ffprobe JSON, after the
`.get(..., default)` defaults and `int(...)` coercions of qc.py:209-224. -/
structure StreamData where
  codec_type : String
  codec_name : String
  width : ℤ
  height : ℤ
  r_frame_rate : String
  bit_rate : ℤ
deriving DecidableEq

/-- The parsed ffprobe JSON document. -/
structure ProbeData where
  format : FormatData
  streams : List StreamData
deriving DecidableEq

/-- The observable behaviour of one `subprocess.run` of ffprobe
(qc.py:172-179): either the invocation itself raised, or the process ran
and returned an exit code, stdout (already pushed through `json.loads`
and the field coercions, whose failures are the `Except.error` case), and
stderr. -/
inductive ProbeOutcome where
  | exc (msg : String)
  | ran (returncode : ℤ) (stdout : Except String ProbeData) (stderr : String)

/-- Embeds qc.py:197-226, `_parse_ffprobe_output`: fold the stream list over the
info record; each video stream overwrites the video fields and each audio
stream the audio fields, exactly as the Python loop assigns them. -/
def parse_ffprobe_output (file_path : String) (data : ProbeData) : MediaInfo :=
  let info := mkMediaInfo file_path
  let info := { info with
    duration_sec := data.format.duration
    bitrate_kbps := data.format.bit_rate.fdiv 1000 }
  data.streams.foldl
    (fun info stream =>
      if stream.codec_type = "video" then
        { info with
          video_codec := stream.codec_name
          width := stream.width
          height := stream.height
          fps := fps_of_rational stream.r_frame_rate }
      else if stream.codec_type = "audio" then
        { info with
          audio_codec := stream.codec_name
          audio_bitrate_kbps := stream.bit_rate.fdiv 1000 }
      else info)
    info

/-- Embeds qc.py:151-194, `probe_media`.  The function is total: every failure of
the external tool (non-zero exit, invocation exception, JSON/coercion
exception) is folded into an invalid `MediaInfo`, never propagated. -/
def probe_media (file_path : String) (outcome : ProbeOutcome) : MediaInfo :=
  match outcome with
  | .exc msg =>
    let info := mkMediaInfo file_path
    { info with is_valid := false, errors := info.errors ++ ["探测失败: " ++ msg] }
  | .ran rc stdout stderr =>
    if ¬ rc = 0 then
      let info := mkMediaInfo file_path
      { info with is_valid := false, errors := info.errors ++ ["无法读取文件: " ++ py_strip stderr] }
    else
      match stdout with
      | .error msg =>
        let info := mkMediaInfo file_path
        { info with is_valid := false, errors := info.errors ++ ["探测失败: " ++ msg] }
      | .ok data => parse_ffprobe_output file_path data

/-! ## QC rule evaluation (check_compatibility) -/

/-- Embeds qc.py:260-262: `custom if custom else DEFAULT` — `None` and the empty
set are both falsy, so both select the built-in default blacklist. -/
def effective_rule_set (custom : Option (List String)) (dflt : List String) : List String :=
  match custom with
  | none => dflt
  | some [] => dflt
  | some l => l

/-- The warning string of qc.py:270. -/
def bitrate_max_msg (b m : ℤ) : String :=
  "码率 " ++ (toString b ++ ("kbps " ++ ("超过最大阈值 " ++ (toString m ++ "kbps"))))

/-- The warning string of qc.py:274. -/
def bitrate_min_msg (b m : ℤ) : String :=
  "码率 " ++ (toString b ++ ("kbps " ++ ("低于最小阈值 " ++ (toString m ++ "kbps"))))

/-- The warning string of qc.py:281. -/
def res_max_msg (w h : ℤ) (mr : String) : String :=
  "分辨率 " ++ (toString w ++ ("x" ++ (toString h ++ (" 超过最大阈值 " ++ mr))))

/-- The warning string of qc.py:290. -/
def res_min_msg (w h : ℤ) (mr : String) : String :=
  "分辨率 " ++ (toString w ++ ("x" ++ (toString h ++ (" 低于最小阈值 " ++ mr))))

/-- The warning string of qc.py:301. -/
def container_msg (c : String) : String := "[兼容性] 容器 " ++ (c ++ " 可能导致兼容性问题")

/-- The warning string of qc.py:305. -/
def codec_msg (c : String) : String := "[兼容性] 编码 " ++ (c ++ " 可能导致兼容性问题")

/-- The fixed MKV warning of qc.py:309. -/
def mkv_msg : String := "[兼容性] MKV 封装对某些软件不友好，建议转封装为 MP4/MOV"

/-- The error string of qc.py:313. -/
def image_format_msg (c : String) : String := "[兼容性] 图片格式 " ++ (c ++ " 可能不被支持")

/-- The warning string of qc.py:332-334. -/
def mismatch_msg (fmt expected actual : String) : String :=
  "[格式不匹配] 文件实际格式为 " ++ (py_upper fmt ++ ("(" ++ (expected ++ (")，但扩展名为 " ++ actual))))

/-- Embeds qc.py:105-125, `get_expected_extension`: dictionary lookup with
default `""`. -/
def get_expected_extension (detected_format : String) : String :=
  if detected_format = "jpeg" then ".jpg"
  else if detected_format = "png" then ".png"
  else if detected_format = "gif" then ".gif"
  else if detected_format = "bmp" then ".bmp"
  else if detected_format = "tiff" then ".tiff"
  else if detected_format = "webp" then ".webp"
  else if detected_format = "heic" then ".heic"
  else if detected_format = "avif" then ".avif"
  else ""

/-- Embeds qc.py:322-328: the equivalence classes `.jpg`/`.jpeg` and
`.tiff`/`.tif`; any other extension is its own singleton class. -/
def equivalent_exts (e : String) : List String :=
  if e = ".jpg" ∨ e = ".jpeg" then [".jpg", ".jpeg"]
  else if e = ".tiff" ∨ e = ".tif" then [".tiff", ".tif"]
  else [e]

/-- Embeds qc.py:279-283: `max_w, max_h = map(int, max_resolution.split("x"))`,
with any exception meaning "no rule applied".  Same parse for the minimum
resolution at qc.py:288. -/
def parse_resolution (s : String) : Option (ℤ × ℤ) :=
  match py_split 'x' s with
  | [a, b] =>
    match py_int a, py_int b with
    | some w, some h => some (w, h)
    | _, _ => none
  | _ => none

/-- The warnings appended by the maximum-bitrate rule, qc.py:269-270. -/
def max_bitrate_warnings (info : MediaInfo) (max_bitrate_kbps : ℤ) : List String :=
  if 0 < max_bitrate_kbps ∧ max_bitrate_kbps < info.bitrate_kbps then
    [bitrate_max_msg info.bitrate_kbps max_bitrate_kbps]
  else []

/-- The warnings appended by the minimum-bitrate rule, qc.py:273-274. -/
def min_bitrate_warnings (info : MediaInfo) (min_bitrate_kbps : ℤ) : List String :=
  if 0 < min_bitrate_kbps ∧ info.bitrate_kbps < min_bitrate_kbps then
    [bitrate_min_msg info.bitrate_kbps min_bitrate_kbps]
  else []

/-- The warnings appended by the maximum-resolution rule, qc.py:277-283:
skipped when the threshold string is empty (falsy), and silently skipped
when it fails to parse. -/
def max_resolution_warnings (info : MediaInfo) (max_resolution : String) : List String :=
  if max_resolution = "" then []
  else
    match parse_resolution max_resolution with
    | some (mw, mh) =>
      if mw < info.width ∨ mh < info.height then
        [res_max_msg info.width info.height max_resolution]
      else []
    | none => []

/-- The warnings appended by the minimum-resolution rule, qc.py:286-292. -/
def min_resolution_warnings (info : MediaInfo) (min_resolution : String) : List String :=
  if min_resolution = "" then []
  else
    match parse_resolution min_resolution with
    | some (mw, mh) =>
      if info.width < mw ∨ info.height < mh then
        [res_min_msg info.width info.height min_resolution]
      else []
    | none => []

/-- The warnings appended by the video-compatibility block, qc.py:298-309,
in evaluation order: container blacklist, codec blacklist, fixed MKV
nudge. -/
def pr_video_warnings (info : MediaInfo) (containers codecs : List String) : List String :=
  (if info.container ∈ containers then [container_msg info.container] else []) ++
  (if py_lower info.video_codec ∈ codecs then [codec_msg info.video_codec] else []) ++
  (if info.container = ".mkv" then [mkv_msg] else [])

/-- The errors appended by the image-format blacklist, qc.py:312-313. -/
def pr_image_errors (info : MediaInfo) (images : List String) : List String :=
  if info.container ∈ images then [image_format_msg info.container] else []

/-- The warnings appended by the signature-vs-extension rule,
qc.py:316-334.  `detect` stands for `detect_image_format_by_header`, the
one filesystem read of the rule evaluator, abstracted as a function from
path to optionally detected format. -/
def pr_image_warnings (detect : String → Option String) (info : MediaInfo) : List String :=
  if py_lower info.container ∈ COMMON_IMAGE_EXTENSIONS then
    match detect info.path with
    | some fmt =>
      let expected := get_expected_extension fmt
      let actual := py_lower info.container
      let actualSet := equivalent_exts actual
      let expectedSet := equivalent_exts expected
      if actualSet.all (fun x => ¬ x ∈ expectedSet) then
        [mismatch_msg fmt expected actual]
      else []
    | none => []
  else []

/-- Embeds qc.py:229-336, `check_compatibility`: appends to `info.warnings` and
`info.errors`, in the source's evaluation order, the findings of each
rule.  The sequential `append` calls of the Python code are embedded as
one concatenation per destination list. -/
def check_compatibility (detect : String → Option String) (info : MediaInfo)
    (max_bitrate_kbps : ℤ) (max_resolution : String)
    (min_bitrate_kbps : ℤ) (min_resolution : String)
    (check_pr_video : Bool) (check_pr_image : Bool)
    (incompatible_containers : Option (List String))
    (incompatible_codecs : Option (List String))
    (incompatible_images : Option (List String)) : MediaInfo :=
  let containers_to_check := effective_rule_set incompatible_containers PR_INCOMPATIBLE_CONTAINERS
  let codecs_to_check := effective_rule_set incompatible_codecs PR_INCOMPATIBLE_CODECS
  let images_to_check := effective_rule_set incompatible_images PR_INCOMPATIBLE_IMAGE_FORMATS
  { info with
    warnings := info.warnings
      ++ max_bitrate_warnings info max_bitrate_kbps
      ++ min_bitrate_warnings info min_bitrate_kbps
      ++ max_resolution_warnings info max_resolution
      ++ min_resolution_warnings info min_resolution
      ++ (if check_pr_video then pr_video_warnings info containers_to_check codecs_to_check else [])
      ++ (if check_pr_image then pr_image_warnings detect info else [])
    errors := info.errors
      ++ (if check_pr_image then pr_image_errors info images_to_check else []) }

/-! ## Directory scan and report (qc.py) -/

/-- One file encountered by the `os.walk` of `scan_directory`, paired with
the outcome its ffprobe invocation would have. -/
structure ScanFile where
  path : String
  outcome : ProbeOutcome

/-- Embeds qc.py:371-377: the default extension list used when the caller passes
`None`. -/
def default_scan_extensions : List String :=
  [".mp4", ".mov", ".avi", ".mkv", ".webm", ".flv", ".wmv", ".m4v", ".ts", ".mts", ".m2ts",
   ".jpg", ".jpeg", ".png", ".gif", ".bmp", ".tiff", ".tif", ".avif", ".webp"]

/-- Embeds qc.py:384: `ext.lower() if ext.startswith(".") else f".{ext.lower()}"`. -/
def normalize_scan_ext (e : String) : String :=
  match e.data with
  | '.' :: _ => py_lower e
  | _ => "." ++ py_lower e

/-- The scan filter of qc.py:391-393: a file is scanned when its lowercased
extension is in the normalized caller list or in
`COMMON_IMAGE_EXTENSIONS | incompatible_image_set` (qc.py:380-382). -/
def scanned_files (files : List ScanFile) (extensions : Option (List String))
    (incompatible_images : Option (List String)) : List ScanFile :=
  let exts := (extensions.getD default_scan_extensions).map normalize_scan_ext
  let incompatible_image_set := effective_rule_set incompatible_images PR_INCOMPATIBLE_IMAGE_FORMATS
  let all_image_formats := COMMON_IMAGE_EXTENSIONS ++ incompatible_image_set
  files.filter (fun f =>
    let ext := py_lower (splitext f.path).2
    decide (ext ∈ exts ∨ ext ∈ all_image_formats))

/-- Embeds qc.py:339-413, `scan_directory`: walk the files, keep those matching
the filter, probe each and evaluate the rules on it, collecting one
`MediaInfo` per kept file in walk order. -/
def scan_directory (detect : String → Option String) (files : List ScanFile)
    (extensions : Option (List String))
    (max_bitrate_kbps : ℤ) (max_resolution : String)
    (min_bitrate_kbps : ℤ) (min_resolution : String)
    (check_pr_video : Bool) (check_pr_image : Bool)
    (incompatible_containers : Option (List String))
    (incompatible_codecs : Option (List String))
    (incompatible_images : Option (List String)) : List MediaInfo :=
  (scanned_files files extensions incompatible_images).map
    (fun f =>
      check_compatibility detect (probe_media f.path f.outcome)
        max_bitrate_kbps max_resolution min_bitrate_kbps min_resolution
        check_pr_video check_pr_image
        incompatible_containers incompatible_codecs incompatible_images)

/-- The summary counters printed by `generate_report`. -/
structure ReportStats where
  total : ℤ
  ok_count : ℤ
  warnings_count : ℤ
  errors_count : ℤ
deriving DecidableEq

/-- Embeds qc.py:434-437, the totals of `generate_report`: Python's `if r.errors`
truthiness is non-emptiness, and `ok_count` is computed by the exact
expression `total - errors_count - warnings_count + both`, over Python
integers (ℤ). -/
def generate_report_stats (results : List MediaInfo) : ReportStats :=
  let total : ℤ := results.length
  let errors_count : ℤ := results.countP (fun r => decide (¬ r.errors = []))
  let warnings_count : ℤ := results.countP (fun r => decide (¬ r.warnings = []))
  let both : ℤ := results.countP (fun r => decide (¬ r.errors = [] ∧ ¬ r.warnings = []))
  { total := total
    ok_count := total - errors_count - warnings_count + both
    warnings_count := warnings_count
    errors_count := errors_count }

/-! ## Batch renamer data model (batch_renamer.py)

The embedding covers the non-recursive traversal (`config.recursive =
False`): the input directory is a flat listing, every relative directory is
`""`, and no parent-folder prefix is involved — the configuration of every
claim about the renamer.  All three modes are covered. -/

/-- Embeds batch_renamer.py:15-31, `RenameConfig`. -/
structure RenameConfig where
  mode : String
  output_dir : Option String
  target_type : String
  image_extensions : List String
  video_extensions : List String
  recursive : Bool
  exclude_underscore : Bool
deriving DecidableEq

/-- One file of the flat input directory: its name (the path relative to
the input directory) and its size in bytes. -/
structure DirEntry where
  name : String
  size : Nat
deriving DecidableEq

/-- Embeds batch_renamer.py:34-43, `normalize_extensions`: strip, lowercase, drop
one leading dot, keep non-empty results. -/
def normalize_extensions (extensions : List String) : List String :=
  (extensions.map
    (fun e =>
      let e := py_lower (py_strip e)
      match e.data with
      | '.' :: rest => List.asString rest
      | _ => e)).filter (fun e => decide (¬ e = ""))

/-- Embeds batch_renamer.py:46-51, `get_file_size`, over the modelled directory:
the size of the named entry, 0 when it does not exist (`OSError`). -/
def get_file_size (entries : List DirEntry) (p : String) : Nat :=
  match entries.find? (fun en => decide (en.name = p)) with
  | some en => en.size
  | none => 0

/-- Insert `x` after every already-placed element whose key is ≤ its key —
the unique stable position.  `stable_sort` below therefore computes what
Python's stable `list.sort(key=...)` computes. -/
def stable_insert (le : String → String → Bool) (x : String) : List String → List String
  | [] => [x]
  | y :: ys => if le y x then y :: stable_insert le x ys else x :: y :: ys

/-- Stable sort by repeated stable insertion, in list order. -/
def stable_sort (le : String → String → Bool) (l : List String) : List String :=
  l.foldl (fun acc x => stable_insert le x acc) []

/-- Embeds batch_renamer.py:54-89, `get_files_sorted_by_size`, non-recursive
branch: list the flat directory, keep files whose lowercased dot-stripped
extension is in the normalized set, and sort ascending by file size
(`files.sort(key=get_file_size)`, a stable sort). -/
def get_files_sorted_by_size (entries : List DirEntry) (extensions : List String) : List String :=
  let exts := normalize_extensions extensions
  let files := (entries.filter
    (fun en => decide (lstrip_dots (py_lower (splitext en.name).2) ∈ exts))).map DirEntry.name
  stable_sort (fun a b => get_file_size entries a ≤ get_file_size entries b) files

/-- Embeds batch_renamer.py:134-154, `determine_media_type`. -/
def determine_media_type (file_path : String) (config : RenameConfig) : Option String :=
  let ext := lstrip_dots (py_lower (splitext file_path).2)
  let image_exts := normalize_extensions config.image_extensions
  let video_exts := normalize_extensions config.video_extensions
  if (config.target_type = "images" ∨ config.target_type = "both") ∧ ext ∈ image_exts then
    some "图片"
  else if (config.target_type = "videos" ∨ config.target_type = "both") ∧ ext ∈ video_exts then
    some "视频"
  else none

/-- Append `p` to the group of `key`, preserving first-insertion order of
keys: the behaviour of `defaultdict(list)` under Python's insertion-ordered
dict (batch_renamer.py:211-224). -/
def insert_grouped (groups : List ((String × String) × List String))
    (key : String × String) (p : String) : List ((String × String) × List String) :=
  match groups with
  | [] => [(key, [p])]
  | (k, l) :: rest =>
    if k = key then (k, l ++ [p]) :: rest else (k, l) :: insert_grouped rest key p

/-- Embeds batch_renamer.py:211-224: partition the sorted file list by
(relative directory, media type); non-recursive, so the relative directory
is always `""`. -/
def grouped_files (config : RenameConfig) (files : List String) :
    List ((String × String) × List String) :=
  files.foldl
    (fun gs p =>
      match determine_media_type p config with
      | none => gs
      | some mt => insert_grouped gs ("", mt) p)
    []

/-- Embeds batch_renamer.py:260-264: the `while os.path.exists(new_path)` loop,
appending `_1`, `_2`, … before the extension.  `fuel` makes the search
total; `resolveDest` passes `state.length + 1`, proved sufficient in
`resolveDest_resolves`. -/
def find_free_name (base ext : String) (state : List String) : Nat → Nat → Option String
  | _, 0 => none
  | counter, fuel + 1 =>
    let cand := base ++ "_" ++ Nat.repr counter ++ ext
    if cand ∈ state then find_free_name base ext state (counter + 1) fuel
    else some cand

/-- Embeds batch_renamer.py:258-264, the collision-avoidance step shared by all
three modes: if the computed destination exists and differs from the
source under `np` (standing for `os.path.normpath`), search for a free
suffixed name; otherwise keep the destination.  `state` is the list of
currently existing paths, so `os.path.exists` is membership. -/
def resolveDest (np : String → String) (state : List String) (src dst : String) : Option String :=
  if dst ∈ state ∧ ¬ np src = np dst then
    let be := splitext dst
    find_free_name be.1 be.2 state 1 (state.length + 1)
  else some dst

/-- Embeds batch_renamer.py:258-275: resolve the destination, then perform the
mode's filesystem write: `os.rename` / `shutil.move` replace the source
entry, `shutil.copy2` adds a new entry.  Returns the new directory state
and the applied (source, destination) operation. -/
def renameStep (mode : String) (state : List DirEntry) (src dst : String) :
    List DirEntry × Option (String × String) :=
  match resolveDest id (state.map DirEntry.name) src dst with
  | none => (state, none)
  | some r =>
    let sz := get_file_size state src
    if mode = "copy_rename" then (state ++ [⟨r, sz⟩], some (src, r))
    else ((state.filter (fun en => decide (¬ en.name = src))) ++ [⟨r, sz⟩], some (src, r))

/-- Embeds batch_renamer.py:233-285: process one group's files with indices
`idx, idx+1, …` (the caller starts at 1): build
`f"{media_type}_{idx}{ext}"`, resolve the destination for the mode, apply
the write, and continue with the updated directory state. -/
def process_group_files (mode output_base media_type : String) :
    Nat → List String → List DirEntry → List DirEntry × List (String × String)
  | _, [], state => (state, [])
  | idx, p :: rest, state =>
    let ext := (splitext p).2
    let new_name := media_type ++ "_" ++ Nat.repr idx ++ ext
    let new_path :=
      if mode = "rename_in_place" then pathJoin (dirname p) new_name
      else pathJoin output_base new_name
    let step := renameStep mode state p new_path
    let next := process_group_files mode output_base media_type (idx + 1) rest step.1
    (next.1, step.2.toList ++ next.2)

/-- Embeds batch_renamer.py:231: iterate the groups in insertion order, each with
its own counter starting at 1. -/
def process_groups (mode output_base : String) :
    List ((String × String) × List String) → List DirEntry →
    List DirEntry × List (String × String)
  | [], state => (state, [])
  | (key, fl) :: rest, state =>
    let g := process_group_files mode output_base key.2 1 fl state
    let next := process_groups mode output_base rest g.1
    (next.1, g.2 ++ next.2)

/-- The observable outcome of a `batch_rename` run: the counters and error
list the Python function returns, plus, for verification, the list of
applied (source, destination) writes and the final directory state. -/
structure BatchResult where
  success_count : Nat
  fail_count : Nat
  errors : List String
  ops : List (String × String)
  state : List DirEntry
deriving DecidableEq

/-- Embeds batch_renamer.py:157-293, `batch_rename`, for the non-recursive flat
directory (`input_path` is the root, names are relative to it): gather the
extension set for the target type, list and size-sort the files, group
them, resolve the output base, and apply the per-file operations. -/
def batch_rename (entries : List DirEntry) (config : RenameConfig) : BatchResult :=
  let all_extensions :=
    (if config.target_type = "images" ∨ config.target_type = "both"
     then config.image_extensions else []) ++
    (if config.target_type = "videos" ∨ config.target_type = "both"
     then config.video_extensions else [])
  let files := get_files_sorted_by_size entries all_extensions
  let output_base :=
    if config.mode = "rename_in_place" then ""
    else
      match config.output_dir with
      | some d => if d = "" then "rename_output" else d
      | none => "rename_output"
  let groups := grouped_files config files
  let attempted := groups.foldl (fun n g => n + g.2.length) 0
  let res := process_groups config.mode output_base groups entries
  { success_count := res.2.length
    fail_count := attempted - res.2.length
    errors := []
    ops := res.2
    state := res.1 }

/-! ## Decimal-representation infrastructure

Used to prove that the suffixed candidate names `f"{base}_{counter}{ext}"`
are pairwise distinct, which makes the collision-avoidance loop terminate. -/

/-- The base-10 value of a digit string (digits read left to right). -/
def decimal_val (l : List Char) : Nat := l.foldl (fun a c => 10 * a + digit_val c) 0

/-! ## Concrete scenario data -/

/-- A well-formed ffprobe document for a plain H.264/AAC clip, used by the
scan scenario. -/
def demo_probe_data : ProbeData :=
  { format := { duration := 12, bit_rate := 8000000 }
    streams :=
      [{ codec_type := "video", codec_name := "h264", width := 1920, height := 1080,
         r_frame_rate := "30000/1001", bit_rate := 0 },
       { codec_type := "audio", codec_name := "aac", width := 0, height := 0,
         r_frame_rate := "0/1", bit_rate := 192000 }] }

/-- The spec's probe-failure scenario: one unreadable file among nine
valid ones, in walk order. -/
def demo_scan_files : List ScanFile :=
  ⟨"bad.mp4", .ran 1 (.error "x") "Invalid data found when processing input"⟩ ::
    (["ok1.mp4", "ok2.mp4", "ok3.mp4", "ok4.mp4", "ok5.mp4",
      "ok6.mp4", "ok7.mp4", "ok8.mp4", "ok9.mp4"].map
      (fun p => ⟨p, .ran 0 (.ok demo_probe_data) ""⟩))

/-- The spec's round-trip rename scenario configuration: in-place mode,
image target, non-recursive, default extension classes. -/
def demo_rename_config : RenameConfig :=
  { mode := "rename_in_place"
    output_dir := none
    target_type := "images"
    image_extensions := ["png", "jpg"]
    video_extensions := ["mp4", "mov"]
    recursive := false
    exclude_underscore := true }

/-! ## Theorems -/

/-- C1: for every list of scan results, `generate_report` computes the
passed count exactly as `total − errored − warned + bothCount`, where
errored / warned / bothCount count the results with a non-empty error
list, a non-empty warning list, and both. -/
theorem generate_report_passed_formula (results : List MediaInfo) :
    (generate_report_stats results).ok_count =
      (results.length : ℤ)
      - ((results.filter (fun r => decide (¬ r.errors = []))).length : ℤ)
      - ((results.filter (fun r => decide (¬ r.warnings = []))).length : ℤ)
      + ((results.filter (fun r => decide (¬ r.errors = [] ∧ ¬ r.warnings = []))).length : ℤ) := by
  simp [generate_report_stats, List.countP_eq_length_filter]

/-- C9: passing an empty custom blacklist to `check_compatibility` is the
same as passing `None` — the built-in default is substituted for both, for
each of the three blacklist parameters. -/
theorem check_compatibility_empty_blacklist_default
    (detect : String → Option String) (info : MediaInfo)
    (maxB : ℤ) (mr : String) (minB : ℤ) (mnr : String) (cv ci : Bool)
    (oc occ oi : Option (List String)) :
    check_compatibility detect info maxB mr minB mnr cv ci (some []) occ oi =
      check_compatibility detect info maxB mr minB mnr cv ci none occ oi ∧
    check_compatibility detect info maxB mr minB mnr cv ci oc (some []) oi =
      check_compatibility detect info maxB mr minB mnr cv ci oc none oi ∧
    check_compatibility detect info maxB mr minB mnr cv ci oc occ (some []) =
      check_compatibility detect info maxB mr minB mnr cv ci oc occ none := by
  exact ⟨rfl, rfl, rfl⟩

/-- C8: the fps parse of `_parse_ffprobe_output` never divides by zero: a
rational string with zero denominator yields fps 0, a well-formed rational
with non-zero denominator yields `num/den` rounded to two decimals (stored
as hundredths), any other string yields 0, and a single video stream's
`r_frame_rate` reaches the `fps` field through exactly this function. -/
theorem parse_ffprobe_fps_division_safe :
    (∀ s n, parse_rational s = some (n, 0) → fps_of_rational s = 0) ∧
    (∀ s n d, parse_rational s = some (n, d) → ¬ d = 0 →
      fps_of_rational s = round_half_even (100 * n) d) ∧
    (∀ s, parse_rational s = none → fps_of_rational s = 0) ∧
    (∀ path fd cn w h rfr br,
      (parse_ffprobe_output path ⟨fd, [⟨"video", cn, w, h, rfr, br⟩]⟩).fps =
        fps_of_rational rfr) := by
  refine ⟨?_, ?_, ?_, ?_⟩
  · intro s n h
    simp [fps_of_rational, h]
  · intro s n d h hd
    simp [fps_of_rational, h, hd]
  · intro s h
    simp [fps_of_rational, h]
  · intro path fd cn w h rfr br
    simp [parse_ffprobe_output]

/-- Witness for `parse_ffprobe_fps_division_safe` at concrete inputs:
a zero denominator, the NTSC rational, and a malformed string. -/
theorem parse_ffprobe_fps_division_safe_witness :
    fps_of_rational "5/0" = 0 ∧
    fps_of_rational "30000/1001" = round_half_even (100 * 30000) 1001 ∧
    fps_of_rational "abc" = 0 :=
  ⟨parse_ffprobe_fps_division_safe.1 "5/0" 5 (by decide),
   parse_ffprobe_fps_division_safe.2.1 "30000/1001" 30000 1001 (by decide) (by decide),
   parse_ffprobe_fps_division_safe.2.2.1 "abc" (by decide)⟩

/-- C4: on every failing probe (non-zero exit, invocation exception, or
output-parsing exception), `probe_media` returns a `MediaInfo` with
`is_valid = false`, all technical attributes zero/empty, no warnings, and
exactly one error string carrying the diagnostic; the function is total,
so no exception ever propagates. -/
theorem probe_media_failure_invalid :
    (∀ path rc out err, ¬ rc = 0 →
      (probe_media path (.ran rc out err)).is_valid = false ∧
      (probe_media path (.ran rc out err)).duration_sec = 0 ∧
      (probe_media path (.ran rc out err)).video_codec = "" ∧
      (probe_media path (.ran rc out err)).width = 0 ∧
      (probe_media path (.ran rc out err)).height = 0 ∧
      (probe_media path (.ran rc out err)).fps = 0 ∧
      (probe_media path (.ran rc out err)).bitrate_kbps = 0 ∧
      (probe_media path (.ran rc out err)).audio_codec = "" ∧
      (probe_media path (.ran rc out err)).audio_bitrate_kbps = 0 ∧
      (probe_media path (.ran rc out err)).warnings = [] ∧
      (probe_media path (.ran rc out err)).errors = ["无法读取文件: " ++ py_strip err]) ∧
    (∀ path msg,
      (probe_media path (.exc msg)).is_valid = false ∧
      (probe_media path (.exc msg)).duration_sec = 0 ∧
      (probe_media path (.exc msg)).video_codec = "" ∧
      (probe_media path (.exc msg)).width = 0 ∧
      (probe_media path (.exc msg)).height = 0 ∧
      (probe_media path (.exc msg)).fps = 0 ∧
      (probe_media path (.exc msg)).bitrate_kbps = 0 ∧
      (probe_media path (.exc msg)).audio_codec = "" ∧
      (probe_media path (.exc msg)).audio_bitrate_kbps = 0 ∧
      (probe_media path (.exc msg)).warnings = [] ∧
      (probe_media path (.exc msg)).errors = ["探测失败: " ++ msg]) ∧
    (∀ path err msg,
      (probe_media path (.ran 0 (.error msg) err)).is_valid = false ∧
      (probe_media path (.ran 0 (.error msg) err)).duration_sec = 0 ∧
      (probe_media path (.ran 0 (.error msg) err)).video_codec = "" ∧
      (probe_media path (.ran 0 (.error msg) err)).width = 0 ∧
      (probe_media path (.ran 0 (.error msg) err)).height = 0 ∧
      (probe_media path (.ran 0 (.error msg) err)).fps = 0 ∧
      (probe_media path (.ran 0 (.error msg) err)).bitrate_kbps = 0 ∧
      (probe_media path (.ran 0 (.error msg) err)).audio_codec = "" ∧
      (probe_media path (.ran 0 (.error msg) err)).audio_bitrate_kbps = 0 ∧
      (probe_media path (.ran 0 (.error msg) err)).warnings = [] ∧
      (probe_media path (.ran 0 (.error msg) err)).errors = ["探测失败: " ++ msg]) := by
  refine ⟨?_, ?_, ?_⟩
  · intro path rc out err h
    simp [probe_media, mkMediaInfo, h]
  · intro path msg
    simp [probe_media, mkMediaInfo]
  · intro path err msg
    simp [probe_media, mkMediaInfo]

/-- Witness for `probe_media_failure_invalid`: the non-zero-exit branch at
a concrete invocation. -/
theorem probe_media_failure_invalid_witness :
    (probe_media "clip.mp4" (.ran 1 (.error "x") " Invalid data ")).is_valid = false ∧
    (probe_media "clip.mp4" (.ran 1 (.error "x") " Invalid data ")).duration_sec = 0 ∧
    (probe_media "clip.mp4" (.ran 1 (.error "x") " Invalid data ")).video_codec = "" ∧
    (probe_media "clip.mp4" (.ran 1 (.error "x") " Invalid data ")).width = 0 ∧
    (probe_media "clip.mp4" (.ran 1 (.error "x") " Invalid data ")).height = 0 ∧
    (probe_media "clip.mp4" (.ran 1 (.error "x") " Invalid data ")).fps = 0 ∧
    (probe_media "clip.mp4" (.ran 1 (.error "x") " Invalid data ")).bitrate_kbps = 0 ∧
    (probe_media "clip.mp4" (.ran 1 (.error "x") " Invalid data ")).audio_codec = "" ∧
    (probe_media "clip.mp4" (.ran 1 (.error "x") " Invalid data ")).audio_bitrate_kbps = 0 ∧
    (probe_media "clip.mp4" (.ran 1 (.error "x") " Invalid data ")).warnings = [] ∧
    (probe_media "clip.mp4" (.ran 1 (.error "x") " Invalid data ")).errors =
      ["无法读取文件: " ++ py_strip " Invalid data "] :=
  probe_media_failure_invalid.1 "clip.mp4" 1 (.error "x") " Invalid data " (by decide)

/-- A maximum-resolution threshold that fails to parse contributes no
warning: the `except: pass` of qc.py:282-283. -/
theorem max_resolution_warnings_of_parse_none (info : MediaInfo) (mr : String)
    (h : parse_resolution mr = none) : max_resolution_warnings info mr = [] := by
  unfold max_resolution_warnings
  by_cases he : mr = ""
  · simp [he]
  · simp [he, h]

/-- A minimum-resolution threshold that fails to parse contributes no
warning: the `except: pass` of qc.py:291-292. -/
theorem min_resolution_warnings_of_parse_none (info : MediaInfo) (mr : String)
    (h : parse_resolution mr = none) : min_resolution_warnings info mr = [] := by
  unfold min_resolution_warnings
  by_cases he : mr = ""
  · simp [he]
  · simp [he, h]

/-- C7: a max- or min-resolution string that does not parse as two
integers separated by `x` is silently ignored: `check_compatibility`
returns exactly what it returns with that threshold disabled (empty
string), so no resolution warning is appended, nothing is raised, and the
remaining rules are evaluated unchanged. -/
theorem check_compatibility_malformed_resolution_inert
    (detect : String → Option String) (info : MediaInfo)
    (maxB : ℤ) (mr : String) (minB : ℤ) (mnr : String) (cv ci : Bool)
    (oc occ oi : Option (List String)) :
    (parse_resolution mr = none →
      check_compatibility detect info maxB mr minB mnr cv ci oc occ oi =
        check_compatibility detect info maxB "" minB mnr cv ci oc occ oi) ∧
    (parse_resolution mnr = none →
      check_compatibility detect info maxB mr minB mnr cv ci oc occ oi =
        check_compatibility detect info maxB mr minB "" cv ci oc occ oi) := by
  constructor
  · intro h
    have h1 : max_resolution_warnings info mr = [] :=
      max_resolution_warnings_of_parse_none info mr h
    have h2 : max_resolution_warnings info "" = [] := rfl
    simp only [check_compatibility, h1, h2]
  · intro h
    have h1 : min_resolution_warnings info mnr = [] :=
      min_resolution_warnings_of_parse_none info mnr h
    have h2 : min_resolution_warnings info "" = [] := rfl
    simp only [check_compatibility, h1, h2]

/-- Witness for `check_compatibility_malformed_resolution_inert`: the
spec's own example string, on a freshly probed file. -/
theorem check_compatibility_malformed_resolution_inert_witness :
    check_compatibility (fun _ => none) (mkMediaInfo "a.mp4")
        0 "not-a-resolution" 0 "" true true none none none =
      check_compatibility (fun _ => none) (mkMediaInfo "a.mp4")
        0 "" 0 "" true true none none none :=
  (check_compatibility_malformed_resolution_inert (fun _ => none) (mkMediaInfo "a.mp4")
    0 "not-a-resolution" 0 "" true true none none none).1 (by decide)

/-- C6: `scan_directory` yields exactly one `MediaInfo` per file matching
the scan filter — a per-file probe failure neither aborts the walk nor
skips siblings (the per-file pipeline is total).  In particular, the
spec's scenario: one corrupt file among nine valid ones yields ten
results, one invalid with a non-empty error list, nine valid. -/
theorem scan_directory_per_file_isolation :
    (∀ (detect : String → Option String) (files : List ScanFile)
        (extensions : Option (List String)) (maxB : ℤ) (mr : String)
        (minB : ℤ) (mnr : String) (cv ci : Bool) (oc occ oi : Option (List String)),
      (scan_directory detect files extensions maxB mr minB mnr cv ci oc occ oi).length =
        (scanned_files files extensions oi).length) ∧
    ((scan_directory (fun _ => none) demo_scan_files none 0 "" 0 "" false false
        none none none).length = 10 ∧
      (scan_directory (fun _ => none) demo_scan_files none 0 "" 0 "" false false
        none none none).countP (fun r => !r.is_valid) = 1 ∧
      (scan_directory (fun _ => none) demo_scan_files none 0 "" 0 "" false false
        none none none).countP (fun r => r.is_valid) = 9 ∧
      (scan_directory (fun _ => none) demo_scan_files none 0 "" 0 "" false false
        none none none).countP (fun r => !r.is_valid && !r.errors.isEmpty) = 1) := by
  constructor
  · intro detect files extensions maxB mr minB mnr cv ci oc occ oi
    simp [scan_directory]
  · exact ⟨by decide, by decide, by decide, by decide⟩

/-- C10: every file whose lowercased extension is in the common-image set
or in the (custom or default) incompatible-image set passes the scan
filter and contributes its probed, rule-checked `MediaInfo` to the
results, whatever the caller-supplied `extensions` list is — that list can
only add formats, never exclude image files. -/
theorem scan_directory_images_always_scanned
    (detect : String → Option String) (files : List ScanFile)
    (extensions : Option (List String)) (maxB : ℤ) (mr : String)
    (minB : ℤ) (mnr : String) (cv ci : Bool) (oc occ oi : Option (List String))
    (f : ScanFile) (hf : f ∈ files)
    (himg : py_lower (splitext f.path).2 ∈ COMMON_IMAGE_EXTENSIONS ∨
      py_lower (splitext f.path).2 ∈ effective_rule_set oi PR_INCOMPATIBLE_IMAGE_FORMATS) :
    f ∈ scanned_files files extensions oi ∧
    check_compatibility detect (probe_media f.path f.outcome)
        maxB mr minB mnr cv ci oc occ oi ∈
      scan_directory detect files extensions maxB mr minB mnr cv ci oc occ oi := by
  have hmem : f ∈ scanned_files files extensions oi := by
    unfold scanned_files
    rw [List.mem_filter]
    refine ⟨hf, ?_⟩
    rw [decide_eq_true_eq]
    right
    rw [List.mem_append]
    exact himg
  refine ⟨hmem, ?_⟩
  unfold scan_directory
  rw [List.mem_map]
  exact ⟨f, hmem, rfl⟩

/-- Witness for `scan_directory_images_always_scanned`: a `.heic` file is
scanned although the caller's extension list contains only `mp4`. -/
theorem scan_directory_images_always_scanned_witness :
    let f : ScanFile := ⟨"pic.heic", .exc "unreadable"⟩
    f ∈ scanned_files [f] (some ["mp4"]) none ∧
    check_compatibility (fun _ => none) (probe_media f.path f.outcome)
        0 "" 0 "" false false none none none ∈
      scan_directory (fun _ => none) [f] (some ["mp4"]) 0 "" 0 "" false false
        none none none :=
  scan_directory_images_always_scanned (fun _ => none) [⟨"pic.heic", .exc "unreadable"⟩]
    (some ["mp4"]) 0 "" 0 "" false false none none none
    ⟨"pic.heic", .exc "unreadable"⟩ (by simp) (by decide)

/-- Folding digits from a non-zero accumulator shifts the accumulator past
the digits. -/
theorem foldl_decimal_shift (l : List Char) : ∀ a : Nat,
    l.foldl (fun a c => 10 * a + digit_val c) a = a * 10 ^ l.length + decimal_val l := by
  induction l with
  | nil => intro a; simp [decimal_val]
  | cons c t ih =>
    intro a
    show t.foldl _ (10 * a + digit_val c) = _
    rw [ih (10 * a + digit_val c)]
    have h2 : decimal_val (c :: t) = digit_val c * 10 ^ t.length + decimal_val t := by
      show t.foldl _ (10 * 0 + digit_val c) = _
      rw [ih (10 * 0 + digit_val c)]
      ring
    rw [h2]
    simp only [List.length_cons, pow_succ]
    ring

/-- Lemma: `digit_val` inverts `Nat.digitChar` on decimal digits. -/
theorem digit_val_digitChar (m : Nat) (h : m < 10) : digit_val (Nat.digitChar m) = m := by
  interval_cases m <;> rfl

/-- Prepending a decimal digit multiplies the tail's weight by ten. -/
theorem decimal_val_cons_digit (m : Nat) (h : m < 10) (acc : List Char) :
    decimal_val (Nat.digitChar m :: acc) = m * 10 ^ acc.length + decimal_val acc := by
  show acc.foldl _ (10 * 0 + digit_val (Nat.digitChar m)) = _
  rw [foldl_decimal_shift acc, digit_val_digitChar m h]
  ring

/-- Lemma: `Nat.toDigitsCore` (with sufficient fuel) prepends the decimal digits
of `n`, so the decimal value of its output recovers `n`. -/
theorem decimal_val_toDigitsCore :
    ∀ (fuel n : Nat) (acc : List Char), n < 10 ^ fuel →
      decimal_val (Nat.toDigitsCore 10 fuel n acc) = n * 10 ^ acc.length + decimal_val acc := by
  intro fuel
  induction fuel with
  | zero =>
    intro n acc h
    have hn : n = 0 := by simpa using h
    subst hn
    simp [Nat.toDigitsCore]
  | succ f ih =>
    intro n acc h
    by_cases hd : n / 10 = 0
    · have hstep : Nat.toDigitsCore 10 (f + 1) n acc = Nat.digitChar (n % 10) :: acc := by
        simp [Nat.toDigitsCore, hd]
      rw [hstep, decimal_val_cons_digit (n % 10) (Nat.mod_lt n (by norm_num)) acc]
      have hn : n % 10 = n := by omega
      rw [hn]
    · have hstep : Nat.toDigitsCore 10 (f + 1) n acc =
          Nat.toDigitsCore 10 f (n / 10) (Nat.digitChar (n % 10) :: acc) := by
        simp [Nat.toDigitsCore, hd]
      have hlt : n / 10 < 10 ^ f := Nat.nat_repr_len_aux n 10 f (by norm_num) h
      rw [hstep, ih (n / 10) (Nat.digitChar (n % 10) :: acc) hlt,
        decimal_val_cons_digit (n % 10) (Nat.mod_lt n (by norm_num)) acc]
      have hnm : 10 * (n / 10) + n % 10 = n := Nat.div_add_mod n 10
      simp only [List.length_cons, pow_succ]
      calc n / 10 * (10 ^ acc.length * 10) + (n % 10 * 10 ^ acc.length + decimal_val acc)
          = (10 * (n / 10) + n % 10) * 10 ^ acc.length + decimal_val acc := by ring
        _ = n * 10 ^ acc.length + decimal_val acc := by rw [hnm]

/-- The decimal value of `Nat.repr n` is `n`. -/
theorem decimal_val_repr (n : Nat) : decimal_val (Nat.repr n).data = n := by
  have h1 : (Nat.repr n).data = Nat.toDigitsCore 10 (n + 1) n [] := rfl
  have hlt : n < 10 ^ (n + 1) :=
    lt_of_lt_of_le (Nat.lt_pow_self (by norm_num) n)
      (Nat.pow_le_pow_right (by norm_num) (Nat.le_succ n))
  rw [h1, decimal_val_toDigitsCore (n + 1) n [] hlt]
  simp [decimal_val]

/-- Distinct naturals have distinct decimal representations. -/
theorem repr_data_injective {m n : Nat} (h : (Nat.repr m).data = (Nat.repr n).data) : m = n := by
  have h2 := congrArg decimal_val h
  rwa [decimal_val_repr, decimal_val_repr] at h2

/-- String concatenation cancels a common prefix. -/
theorem string_append_left_cancel {p x y : String} (h : p ++ x = p ++ y) : x = y := by
  have h2 := congrArg String.data h
  simp only [String.data_append] at h2
  exact String.ext (List.append_cancel_left h2)

/-- The suffixed candidate names `f"{base}_{counter}{ext}"` generated by
the collision-avoidance loop are pairwise distinct. -/
theorem candidate_name_injective (base ext : String) :
    Function.Injective (fun k : Nat => base ++ "_" ++ Nat.repr k ++ ext) := by
  intro k1 k2 h
  have h2 := congrArg String.data h
  simp only [String.data_append] at h2
  exact repr_data_injective (List.append_cancel_left (List.append_cancel_right h2))

/-- Pigeonhole: among more candidate names than existing paths, some
candidate is free. -/
theorem exists_free_candidate (base ext : String) (state : List String) (counter fuel : Nat)
    (hf : state.length < fuel) :
    ∃ j, counter ≤ j ∧ j < counter + fuel ∧ ¬ (base ++ "_" ++ Nat.repr j ++ ext) ∈ state := by
  by_contra hall
  push_neg at hall
  have hsub : ((List.range' counter fuel).map
      (fun k => base ++ "_" ++ Nat.repr k ++ ext)).toFinset ⊆ state.toFinset := by
    intro x hx
    rw [List.mem_toFinset] at hx ⊢
    rw [List.mem_map] at hx
    obtain ⟨k, hk, rfl⟩ := hx
    rw [List.mem_range'] at hk
    obtain ⟨i, hi, rfl⟩ := hk
    exact hall (counter + 1 * i) (by omega) (by omega)
  have hnd : ((List.range' counter fuel).map
      (fun k => base ++ "_" ++ Nat.repr k ++ ext)).Nodup :=
    List.Nodup.map (candidate_name_injective base ext) (List.nodup_range' counter fuel)
  have hcard := Finset.card_le_card hsub
  rw [List.toFinset_card_of_nodup hnd] at hcard
  have hlen : ((List.range' counter fuel).map
      (fun k => base ++ "_" ++ Nat.repr k ++ ext)).length = fuel := by simp
  have hle := List.toFinset_card_le state
  omega

/-- Whatever `find_free_name` returns does not exist yet. -/
theorem find_free_name_not_mem (base ext : String) (state : List String) :
    ∀ (fuel counter : Nat) (r : String),
      find_free_name base ext state counter fuel = some r → ¬ r ∈ state := by
  intro fuel
  induction fuel with
  | zero => intro counter r h; simp [find_free_name] at h
  | succ f ih =>
    intro counter r h
    simp only [find_free_name] at h
    by_cases hc : (base ++ "_" ++ Nat.repr counter ++ ext) ∈ state
    · rw [if_pos hc] at h
      exact ih counter.succ r h
    · rw [if_neg hc] at h
      cases h
      exact hc

/-- Lemma: `find_free_name` succeeds whenever a free candidate exists within the
fuel window. -/
theorem find_free_name_finds (base ext : String) (state : List String) :
    ∀ (fuel counter : Nat),
      (∃ j, counter ≤ j ∧ j < counter + fuel ∧ ¬ (base ++ "_" ++ Nat.repr j ++ ext) ∈ state) →
      ∃ r, find_free_name base ext state counter fuel = some r := by
  intro fuel
  induction fuel with
  | zero =>
    intro counter h
    obtain ⟨j, h1, h2, _⟩ := h
    omega
  | succ f ih =>
    intro counter h
    obtain ⟨j, h1, h2, h3⟩ := h
    simp only [find_free_name]
    by_cases hc : (base ++ "_" ++ Nat.repr counter ++ ext) ∈ state
    · rw [if_pos hc]
      apply ih (counter + 1)
      refine ⟨j, ?_, by omega, h3⟩
      rcases Nat.eq_or_lt_of_le h1 with he | hl
      · exact absurd hc (he ▸ h3)
      · omega
    · rw [if_neg hc]
      exact ⟨_, rfl⟩

/-- The collision-avoidance step always resolves (the fuel
`state.length + 1` is sufficient), and the resolved destination either
does not exist yet or is the source itself under path normalization. -/
theorem resolveDest_resolves (np : String → String) (state : List String) (src dst : String) :
    ∃ r, resolveDest np state src dst = some r ∧ (¬ r ∈ state ∨ np r = np src) := by
  unfold resolveDest
  by_cases hc : dst ∈ state ∧ ¬ np src = np dst
  · rw [if_pos hc]
    obtain ⟨r, hr⟩ := find_free_name_finds (splitext dst).1 (splitext dst).2 state
      (state.length + 1) 1
      (exists_free_candidate (splitext dst).1 (splitext dst).2 state 1 (state.length + 1)
        (by omega))
    exact ⟨r, hr, Or.inl (find_free_name_not_mem (splitext dst).1 (splitext dst).2 state
      (state.length + 1) 1 r hr)⟩
  · rw [if_neg hc]
    refine ⟨dst, rfl, ?_⟩
    by_cases hd : dst ∈ state
    · push_neg at hc
      exact Or.inr (hc hd).symm
    · exact Or.inl hd

/-- C2: in every mode, no filesystem write of `batch_rename` targets a
path that already holds a file distinct from the source: the resolved
destination of the shared collision-avoidance step (batch_renamer.py:
258-264) either does not exist in the current directory state or is the
source itself (path-normalized comparison), suffixes `_1`, `_2`, …
having been appended until a free name was found. -/
theorem batch_rename_no_overwrite :
    (∀ (np : String → String) (state : List String) (src dst : String),
      ∃ r, resolveDest np state src dst = some r ∧ (¬ r ∈ state ∨ np r = np src)) ∧
    (∀ (mode : String) (state : List DirEntry) (src dst : String),
      ∃ r, (renameStep mode state src dst).2 = some (src, r) ∧
        (¬ r ∈ state.map DirEntry.name ∨ r = src)) := by
  constructor
  · exact resolveDest_resolves
  · intro mode state src dst
    obtain ⟨r, hr, hsafe⟩ := resolveDest_resolves id (state.map DirEntry.name) src dst
    refine ⟨r, ?_, ?_⟩
    · unfold renameStep
      rw [hr]
      by_cases hm : mode = "copy_rename" <;> simp [hm]
    · simpa using hsafe

/-- Membership in a stable insertion. -/
theorem mem_stable_insert (le : String → String → Bool) (x : String) :
    ∀ (l : List String) (a : String), a ∈ stable_insert le x l ↔ a = x ∨ a ∈ l := by
  intro l
  induction l with
  | nil => intro a; simp [stable_insert]
  | cons y ys ih =>
    intro a
    simp only [stable_insert]
    by_cases h : le y x
    · rw [if_pos h]
      simp only [List.mem_cons, ih]
      tauto
    · rw [if_neg h]
      simp only [List.mem_cons]

/-- Stable insertion preserves sortedness (for a total, transitive
comparison). -/
theorem pairwise_stable_insert (le : String → String → Bool)
    (total : ∀ a b, le a b = true ∨ le b a = true)
    (htrans : ∀ a b c, le a b = true → le b c = true → le a c = true)
    (x : String) :
    ∀ l, List.Pairwise (fun a b => le a b = true) l →
      List.Pairwise (fun a b => le a b = true) (stable_insert le x l) := by
  intro l
  induction l with
  | nil =>
    intro _
    simp [stable_insert]
  | cons y ys ih =>
    intro hp
    rw [List.pairwise_cons] at hp
    obtain ⟨hy, hys⟩ := hp
    simp only [stable_insert]
    by_cases h : le y x
    · rw [if_pos h, List.pairwise_cons]
      constructor
      · intro a ha
        rw [mem_stable_insert] at ha
        rcases ha with rfl | ha
        · exact h
        · exact hy a ha
      · exact ih hys
    · rw [if_neg h, List.pairwise_cons]
      have hxy : le x y = true := by
        rcases total y x with ht | ht
        · exact absurd ht h
        · exact ht
      constructor
      · intro a ha
        rcases List.mem_cons.mp ha with rfl | ha
        · exact hxy
        · exact htrans x y a hxy (hy a ha)
      · exact List.pairwise_cons.mpr ⟨hy, hys⟩

/-- The insertion sort is sorted, from any sorted accumulator. -/
theorem pairwise_stable_sort_aux (le : String → String → Bool)
    (total : ∀ a b, le a b = true ∨ le b a = true)
    (htrans : ∀ a b c, le a b = true → le b c = true → le a c = true) :
    ∀ (l acc : List String), List.Pairwise (fun a b => le a b = true) acc →
      List.Pairwise (fun a b => le a b = true)
        (l.foldl (fun acc x => stable_insert le x acc) acc) := by
  intro l
  induction l with
  | nil => intro acc h; exact h
  | cons x xs ih =>
    intro acc h
    exact ih (stable_insert le x acc) (pairwise_stable_insert le total htrans x acc h)

/-- Lemma: `stable_sort` sorts. -/
theorem stable_sort_pairwise (le : String → String → Bool)
    (total : ∀ a b, le a b = true ∨ le b a = true)
    (htrans : ∀ a b c, le a b = true → le b c = true → le a c = true)
    (l : List String) :
    List.Pairwise (fun a b => le a b = true) (stable_sort le l) :=
  pairwise_stable_sort_aux le total htrans l [] List.Pairwise.nil

/-- C3: the spec's round-trip scenario — a flat directory with three image
files of sizes 10, 50 and 5 bytes, non-recursive, in-place, image target —
renames the 5-byte file to `图片_1`, the 10-byte file to `图片_2` and the
50-byte file to `图片_3` (for either configured image extension), because
the filtered set is sorted ascending by file size and each group's indices
start at 1 in that sort order. -/
theorem batch_rename_size_order_scenario :
    (∀ e, e ∈ normalize_extensions ["png", "jpg"] →
      (batch_rename [⟨"b." ++ e, 10⟩, ⟨"c." ++ e, 50⟩, ⟨"a." ++ e, 5⟩]
          demo_rename_config).ops =
        [("a." ++ e, "图片_1." ++ e), ("b." ++ e, "图片_2." ++ e),
         ("c." ++ e, "图片_3." ++ e)] ∧
      (batch_rename [⟨"b." ++ e, 10⟩, ⟨"c." ++ e, 50⟩, ⟨"a." ++ e, 5⟩]
          demo_rename_config).state =
        [⟨"图片_1." ++ e, 5⟩, ⟨"图片_2." ++ e, 10⟩, ⟨"图片_3." ++ e, 50⟩]) ∧
    (∀ (entries : List DirEntry) (exts : List String),
      List.Pairwise (fun a b => get_file_size entries a ≤ get_file_size entries b)
        (get_files_sorted_by_size entries exts)) := by
  constructor
  · intro e he
    have hn : normalize_extensions ["png", "jpg"] = ["png", "jpg"] := by decide
    rw [hn] at he
    simp only [List.mem_cons, List.not_mem_nil, or_false] at he
    rcases he with rfl | rfl
    · exact ⟨by decide, by decide⟩
    · exact ⟨by decide, by decide⟩
  · intro entries exts
    have h := stable_sort_pairwise
      (fun a b => decide (get_file_size entries a ≤ get_file_size entries b))
      (fun a b => by
        simp only [decide_eq_true_eq]
        omega)
      (fun a b c h1 h2 => by
        simp only [decide_eq_true_eq] at h1 h2 ⊢
        omega)
      ((entries.filter
        (fun en => decide (lstrip_dots (py_lower (splitext en.name).2) ∈
          normalize_extensions exts))).map DirEntry.name)
    unfold get_files_sorted_by_size
    exact h.imp (fun hab => by simpa using hab)

/-- Witness for `batch_rename_size_order_scenario` at the extension
`png`. -/
theorem batch_rename_size_order_scenario_witness :
    (batch_rename [⟨"b.png", 10⟩, ⟨"c.png", 50⟩, ⟨"a.png", 5⟩] demo_rename_config).ops =
      [("a.png", "图片_1.png"), ("b.png", "图片_2.png"), ("c.png", "图片_3.png")] ∧
    (batch_rename [⟨"b.png", 10⟩, ⟨"c.png", 50⟩, ⟨"a.png", 5⟩] demo_rename_config).state =
      [⟨"图片_1.png", 5⟩, ⟨"图片_2.png", 10⟩, ⟨"图片_3.png", 50⟩] :=
  batch_rename_size_order_scenario.1 "png" (by decide)

/-- The first character of a literal-headed concatenation. -/
theorem head_of_lit_append (lit x : String) (c : Char) (cs : List Char)
    (h : lit.data = c :: cs) : (lit ++ x).data.head? = some c := by
  rw [String.data_append, h]
  rfl

/-- Strings with different first characters are different. -/
theorem ne_of_data_head {s t : String} (h : ¬ s.data.head? = t.data.head?) : ¬ s = t :=
  fun e => h (congrArg (fun u => u.data.head?) e)

/-- The ceiling warning starts with the bitrate marker. -/
theorem bitrate_max_msg_data_head (b m : ℤ) : (bitrate_max_msg b m).data.head? = some '码' :=
  head_of_lit_append "码率 " _ '码' _ rfl

/-- The floor warning starts with the bitrate marker. -/
theorem bitrate_min_msg_data_head (b m : ℤ) : (bitrate_min_msg b m).data.head? = some '码' :=
  head_of_lit_append "码率 " _ '码' _ rfl

/-- The max-resolution warning starts with the resolution marker. -/
theorem res_max_msg_data_head (w h : ℤ) (mr : String) :
    (res_max_msg w h mr).data.head? = some '分' :=
  head_of_lit_append "分辨率 " _ '分' _ rfl

/-- The min-resolution warning starts with the resolution marker. -/
theorem res_min_msg_data_head (w h : ℤ) (mr : String) :
    (res_min_msg w h mr).data.head? = some '分' :=
  head_of_lit_append "分辨率 " _ '分' _ rfl

/-- The container warning starts with the compatibility bracket. -/
theorem container_msg_data_head (c : String) : (container_msg c).data.head? = some '[' :=
  head_of_lit_append "[兼容性] 容器 " _ '[' _ rfl

/-- The codec warning starts with the compatibility bracket. -/
theorem codec_msg_data_head (c : String) : (codec_msg c).data.head? = some '[' :=
  head_of_lit_append "[兼容性] 编码 " _ '[' _ rfl

/-- The MKV warning starts with the compatibility bracket. -/
theorem mkv_msg_data_head : mkv_msg.data.head? = some '[' := rfl

/-- The image-format error starts with the compatibility bracket. -/
theorem image_format_msg_data_head (c : String) :
    (image_format_msg c).data.head? = some '[' :=
  head_of_lit_append "[兼容性] 图片格式 " _ '[' _ rfl

/-- The signature-mismatch warning starts with the mismatch bracket. -/
theorem mismatch_msg_data_head (f e a : String) :
    (mismatch_msg f e a).data.head? = some '[' :=
  head_of_lit_append "[格式不匹配] 文件实际格式为 " _ '[' _ rfl

/-- The ceiling and floor warnings are distinct strings (they diverge
after the shared bitrate prefix). -/
theorem bitrate_max_msg_ne_min (b m m' : ℤ) : ¬ bitrate_max_msg b m = bitrate_min_msg b m' := by
  intro h
  unfold bitrate_max_msg bitrate_min_msg at h
  have h1 := string_append_left_cancel h
  have h2 := string_append_left_cancel h1
  have h3 := string_append_left_cancel h2
  exact ne_of_data_head
    (by
      rw [head_of_lit_append "超过最大阈值 " _ '超' _ rfl,
        head_of_lit_append "低于最小阈值 " _ '低' _ rfl]
      decide)
    h3

/-- The ceiling warning sits in the max-bitrate segment exactly when the
threshold is positive and exceeded. -/
theorem mem_max_bitrate_warnings (info : MediaInfo) (maxB : ℤ) :
    bitrate_max_msg info.bitrate_kbps maxB ∈ max_bitrate_warnings info maxB ↔
      0 < maxB ∧ maxB < info.bitrate_kbps := by
  unfold max_bitrate_warnings
  by_cases h : 0 < maxB ∧ maxB < info.bitrate_kbps
  · simp [h]
  · simp [h]

/-- The floor warning sits in the min-bitrate segment exactly when the
threshold is positive and undershot. -/
theorem mem_min_bitrate_warnings (info : MediaInfo) (minB : ℤ) :
    bitrate_min_msg info.bitrate_kbps minB ∈ min_bitrate_warnings info minB ↔
      0 < minB ∧ info.bitrate_kbps < minB := by
  unfold min_bitrate_warnings
  by_cases h : 0 < minB ∧ info.bitrate_kbps < minB
  · simp [h]
  · simp [h]

/-- Anything in the min-bitrate segment is the floor warning. -/
theorem eq_of_mem_min_bitrate_warnings {s : String} {info : MediaInfo} {minB : ℤ}
    (h : s ∈ min_bitrate_warnings info minB) : s = bitrate_min_msg info.bitrate_kbps minB := by
  unfold min_bitrate_warnings at h
  by_cases hc : 0 < minB ∧ info.bitrate_kbps < minB
  · simpa [hc] using h
  · simp [hc] at h

/-- Anything in the max-bitrate segment is the ceiling warning. -/
theorem eq_of_mem_max_bitrate_warnings {s : String} {info : MediaInfo} {maxB : ℤ}
    (h : s ∈ max_bitrate_warnings info maxB) : s = bitrate_max_msg info.bitrate_kbps maxB := by
  unfold max_bitrate_warnings at h
  by_cases hc : 0 < maxB ∧ maxB < info.bitrate_kbps
  · simpa [hc] using h
  · simp [hc] at h

/-- Every max-resolution warning starts with the resolution marker. -/
theorem head_of_mem_max_resolution_warnings {s : String} {info : MediaInfo} {mr : String}
    (h : s ∈ max_resolution_warnings info mr) : s.data.head? = some '分' := by
  unfold max_resolution_warnings at h
  by_cases he : mr = ""
  · simp [he] at h
  · rw [if_neg he] at h
    rcases hp : parse_resolution mr with _ | ⟨mw, mh⟩ <;> rw [hp] at h
    · simp at h
    · by_cases hc : mw < info.width ∨ mh < info.height
      · have hs : s = res_max_msg info.width info.height mr := by simpa [hc] using h
        rw [hs]
        exact res_max_msg_data_head info.width info.height mr
      · simp [hc] at h

/-- Every min-resolution warning starts with the resolution marker. -/
theorem head_of_mem_min_resolution_warnings {s : String} {info : MediaInfo} {mr : String}
    (h : s ∈ min_resolution_warnings info mr) : s.data.head? = some '分' := by
  unfold min_resolution_warnings at h
  by_cases he : mr = ""
  · simp [he] at h
  · rw [if_neg he] at h
    rcases hp : parse_resolution mr with _ | ⟨mw, mh⟩ <;> rw [hp] at h
    · simp at h
    · by_cases hc : info.width < mw ∨ info.height < mh
      · have hs : s = res_min_msg info.width info.height mr := by simpa [hc] using h
        rw [hs]
        exact res_min_msg_data_head info.width info.height mr
      · simp [hc] at h

/-- Every video-compatibility warning starts with the bracket marker. -/
theorem head_of_mem_pr_video_warnings {s : String} {info : MediaInfo}
    {containers codecs : List String}
    (h : s ∈ pr_video_warnings info containers codecs) : s.data.head? = some '[' := by
  unfold pr_video_warnings at h
  simp only [List.append_assoc, List.mem_append] at h
  rcases h with h | h | h
  · by_cases hc : info.container ∈ containers
    · have hs : s = container_msg info.container := by simpa [hc] using h
      rw [hs]
      exact container_msg_data_head info.container
    · simp [hc] at h
  · by_cases hc : py_lower info.video_codec ∈ codecs
    · have hs : s = codec_msg info.video_codec := by simpa [hc] using h
      rw [hs]
      exact codec_msg_data_head info.video_codec
    · simp [hc] at h
  · by_cases hc : info.container = ".mkv"
    · have hs : s = mkv_msg := by simpa [hc] using h
      rw [hs]
      exact mkv_msg_data_head
    · simp [hc] at h

/-- Every signature-mismatch warning starts with the bracket marker. -/
theorem head_of_mem_pr_image_warnings {s : String} {detect : String → Option String}
    {info : MediaInfo} (h : s ∈ pr_image_warnings detect info) : s.data.head? = some '[' := by
  unfold pr_image_warnings at h
  by_cases h1 : py_lower info.container ∈ COMMON_IMAGE_EXTENSIONS
  · rw [if_pos h1] at h
    rcases hd : detect info.path with _ | fmt <;> rw [hd] at h
    · simp at h
    · simp at h
      rw [h.2]
      exact mismatch_msg_data_head fmt (get_expected_extension fmt) (py_lower info.container)
  · simp [h1] at h

/-- Every image-format error starts with the bracket marker. -/
theorem head_of_mem_pr_image_errors {s : String} {info : MediaInfo} {images : List String}
    (h : s ∈ pr_image_errors info images) : s.data.head? = some '[' := by
  unfold pr_image_errors at h
  by_cases hc : info.container ∈ images
  · have hs : s = image_format_msg info.container := by simpa [hc] using h
    rw [hs]
    exact image_format_msg_data_head info.container
  · simp [hc] at h

/-- C5: `check_compatibility` appends the bitrate ceiling-violation
warning — never an error — exactly when the ceiling is positive and
exceeded, and the floor-violation warning exactly when the floor is
positive and undershot; a zero threshold disables the check.  Membership
is taken in what the call appends after the pre-existing warnings/errors. -/
theorem check_compatibility_bitrate_thresholds
    (detect : String → Option String) (info : MediaInfo)
    (maxB : ℤ) (mr : String) (minB : ℤ) (mnr : String) (cv ci : Bool)
    (oc occ oi : Option (List String)) :
    (bitrate_max_msg info.bitrate_kbps maxB ∈
        ((check_compatibility detect info maxB mr minB mnr cv ci oc occ oi).warnings).drop
          info.warnings.length ↔
      0 < maxB ∧ maxB < info.bitrate_kbps) ∧
    (bitrate_min_msg info.bitrate_kbps minB ∈
        ((check_compatibility detect info maxB mr minB mnr cv ci oc occ oi).warnings).drop
          info.warnings.length ↔
      0 < minB ∧ info.bitrate_kbps < minB) ∧
    ¬ bitrate_max_msg info.bitrate_kbps maxB ∈
        ((check_compatibility detect info maxB mr minB mnr cv ci oc occ oi).errors).drop
          info.errors.length ∧
    ¬ bitrate_min_msg info.bitrate_kbps minB ∈
        ((check_compatibility detect info maxB mr minB mnr cv ci oc occ oi).errors).drop
          info.errors.length := by
  have hw : (check_compatibility detect info maxB mr minB mnr cv ci oc occ oi).warnings =
      info.warnings ++ (max_bitrate_warnings info maxB ++ (min_bitrate_warnings info minB ++
        (max_resolution_warnings info mr ++ (min_resolution_warnings info mnr ++
          ((if cv then pr_video_warnings info
              (effective_rule_set oc PR_INCOMPATIBLE_CONTAINERS)
              (effective_rule_set occ PR_INCOMPATIBLE_CODECS) else []) ++
            (if ci then pr_image_warnings detect info else [])))))) := by
    simp [check_compatibility, List.append_assoc]
  have herr : (check_compatibility detect info maxB mr minB mnr cv ci oc occ oi).errors =
      info.errors ++
        (if ci then pr_image_errors info
          (effective_rule_set oi PR_INCOMPATIBLE_IMAGE_FORMATS) else []) := by
    simp [check_compatibility]
  refine ⟨?_, ?_, ?_, ?_⟩
  · rw [hw, List.drop_left]
    simp only [List.mem_append]
    constructor
    · intro hmem
      rcases hmem with h | h | h | h | h | h
      · exact (mem_max_bitrate_warnings info maxB).mp h
      · exact absurd (eq_of_mem_min_bitrate_warnings h)
          (bitrate_max_msg_ne_min info.bitrate_kbps maxB minB)
      · exact absurd ((bitrate_max_msg_data_head info.bitrate_kbps maxB).symm.trans
          (head_of_mem_max_resolution_warnings h)) (by decide)
      · exact absurd ((bitrate_max_msg_data_head info.bitrate_kbps maxB).symm.trans
          (head_of_mem_min_resolution_warnings h)) (by decide)
      · cases cv with
        | false => simp at h
        | true =>
          simp only [if_true] at h
          exact absurd ((bitrate_max_msg_data_head info.bitrate_kbps maxB).symm.trans
            (head_of_mem_pr_video_warnings h)) (by decide)
      · cases ci with
        | false => simp at h
        | true =>
          simp only [if_true] at h
          exact absurd ((bitrate_max_msg_data_head info.bitrate_kbps maxB).symm.trans
            (head_of_mem_pr_image_warnings h)) (by decide)
    · intro hcond
      exact Or.inl ((mem_max_bitrate_warnings info maxB).mpr hcond)
  · rw [hw, List.drop_left]
    simp only [List.mem_append]
    constructor
    · intro hmem
      rcases hmem with h | h | h | h | h | h
      · have he := eq_of_mem_max_bitrate_warnings h
        exact absurd he.symm (bitrate_max_msg_ne_min info.bitrate_kbps maxB minB)
      · exact (mem_min_bitrate_warnings info minB).mp h
      · exact absurd ((bitrate_min_msg_data_head info.bitrate_kbps minB).symm.trans
          (head_of_mem_max_resolution_warnings h)) (by decide)
      · exact absurd ((bitrate_min_msg_data_head info.bitrate_kbps minB).symm.trans
          (head_of_mem_min_resolution_warnings h)) (by decide)
      · cases cv with
        | false => simp at h
        | true =>
          simp only [if_true] at h
          exact absurd ((bitrate_min_msg_data_head info.bitrate_kbps minB).symm.trans
            (head_of_mem_pr_video_warnings h)) (by decide)
      · cases ci with
        | false => simp at h
        | true =>
          simp only [if_true] at h
          exact absurd ((bitrate_min_msg_data_head info.bitrate_kbps minB).symm.trans
            (head_of_mem_pr_image_warnings h)) (by decide)
    · intro hcond
      exact Or.inr (Or.inl ((mem_min_bitrate_warnings info minB).mpr hcond))
  · rw [herr, List.drop_left]
    intro h
    cases ci with
    | false => simp at h
    | true =>
      simp only [if_true] at h
      exact absurd ((bitrate_max_msg_data_head info.bitrate_kbps maxB).symm.trans
        (head_of_mem_pr_image_errors h)) (by decide)
  · rw [herr, List.drop_left]
    intro h
    cases ci with
    | false => simp at h
    | true =>
      simp only [if_true] at h
      exact absurd ((bitrate_min_msg_data_head info.bitrate_kbps minB).symm.trans
        (head_of_mem_pr_image_errors h)) (by decide)

/-- Witness for `batch_rename_no_overwrite`: with `图片_1.png` already
present and distinct from the source, the in-place step resolves to a
fresh suffixed name. -/
theorem batch_rename_no_overwrite_witness :
    ∃ r, (renameStep "rename_in_place" [⟨"图片_1.png", 7⟩, ⟨"a.png", 5⟩]
        "a.png" "图片_1.png").2 = some ("a.png", r) ∧
      (¬ r ∈ ([⟨"图片_1.png", 7⟩, ⟨"a.png", 5⟩] : List DirEntry).map DirEntry.name ∨
        r = "a.png") :=
  batch_rename_no_overwrite.2 "rename_in_place" [⟨"图片_1.png", 7⟩, ⟨"a.png", 5⟩]
    "a.png" "图片_1.png"

/-- Witness for `check_compatibility_bitrate_thresholds` on a concrete
probed file with bitrate 9000 kbps, ceiling 8000 and floor 500. -/
theorem check_compatibility_bitrate_thresholds_witness :
    let info : MediaInfo := { mkMediaInfo "v.mp4" with bitrate_kbps := 9000 }
    (bitrate_max_msg info.bitrate_kbps 8000 ∈
        ((check_compatibility (fun _ => none) info 8000 "" 500 "" true true
          none none none).warnings).drop info.warnings.length ↔
      (0 : ℤ) < 8000 ∧ (8000 : ℤ) < info.bitrate_kbps) ∧
    (bitrate_min_msg info.bitrate_kbps 500 ∈
        ((check_compatibility (fun _ => none) info 8000 "" 500 "" true true
          none none none).warnings).drop info.warnings.length ↔
      (0 : ℤ) < 500 ∧ info.bitrate_kbps < 500) ∧
    ¬ bitrate_max_msg info.bitrate_kbps 8000 ∈
        ((check_compatibility (fun _ => none) info 8000 "" 500 "" true true
          none none none).errors).drop info.errors.length ∧
    ¬ bitrate_min_msg info.bitrate_kbps 500 ∈
        ((check_compatibility (fun _ => none) info 8000 "" 500 "" true true
          none none none).errors).drop info.errors.length :=
  check_compatibility_bitrate_thresholds (fun _ => none)
    { mkMediaInfo "v.mp4" with bitrate_kbps := 9000 } 8000 "" 500 "" true true none none none
